import Mathlib

/-!
Verification of the sweet-shop inventory backend.

The development shallowly embeds the business logic of the backend:
the catalog store is a list of rows, each service function is a pure
function threading the store state explicitly, and every raised
HTTPException becomes an error value carrying the same status code and
detail.  Definitions keep the names of the Python functions they embed.
-/

/-- A catalog entry, embedding the SQLAlchemy model Sweet
(src/backend/app/models/sweet.py): integer primary key id, name and
category strings, price (a Float column, embedded as a rational) and
integer quantity. -/
structure Sweet where
  id : Int
  name : String
  category : String
  price : ℚ
  quantity : Int
deriving DecidableEq, Repr

/-- Replace the quantity field of a row, leaving every other field
unchanged; this is the in-place mutation sweet.quantity = ... performed
by the inventory service before committing. -/
def Sweet.setQuantity (s : Sweet) (q : Int) : Sweet :=
  ⟨s.id, s.name, s.category, s.price, q⟩

/-- The error values raised as HTTPException by the backend code paths
relevant to the claims. -/
inductive ApiError where
  | notFound
  | outOfStock
  | insufficientStock (available : Int)
  | forbidden
  | emailRegistered
deriving DecidableEq, Repr

/-- The status_code argument of each HTTPException raise. -/
def ApiError.statusCode : ApiError → Nat
  | .notFound => 404
  | .outOfStock => 400
  | .insufficientStock _ => 400
  | .forbidden => 403
  | .emailRegistered => 400

/-- The detail argument of each HTTPException raise. -/
def ApiError.detail : ApiError → String
  | .notFound => "Sweet not found"
  | .outOfStock => "Sweet is out of stock"
  | .insufficientStock available =>
      "Insufficient stock. Only " ++ toString available ++ " available"
  | .forbidden => "Admin access required"
  | .emailRegistered => "Email already registered"

/-- db.query(Sweet).filter(Sweet.id == sweet_id).first() : the first row
of the store whose id matches. -/
def findSweet (db : List Sweet) (sweet_id : Int) : Option Sweet :=
  db.find? (fun s => s.id == sweet_id)

/-- Committing the in-place mutation of the row with the given id:
the row whose primary key matches is replaced by its mutated version. -/
def updateRow (db : List Sweet) (sweet_id : Int) (u : Sweet) : List Sweet :=
  db.map (fun s => if s.id == sweet_id then u else s)

/-- InventoryService.purchase_sweet
(src/backend/app/services/inventory_service.py): look the sweet up,
raise 404 if absent, raise out-of-stock if its quantity is zero, raise
insufficient stock (reporting the available quantity) if the quantity is
below the requested amount, otherwise decrease the quantity and commit.
The pair returned is (result or error, store state after the call). -/
def purchase_sweet (db : List Sweet) (sweet_id quantity : Int) :
    Except ApiError Sweet × List Sweet :=
  match findSweet db sweet_id with
  | none => (Except.error ApiError.notFound, db)
  | some sweet =>
    if sweet.quantity = 0 then
      (Except.error ApiError.outOfStock, db)
    else if sweet.quantity < quantity then
      (Except.error (ApiError.insufficientStock sweet.quantity), db)
    else
      (Except.ok (sweet.setQuantity (sweet.quantity - quantity)),
       updateRow db sweet_id (sweet.setQuantity (sweet.quantity - quantity)))

/-- InventoryService.restock_sweet
(src/backend/app/services/inventory_service.py): look the sweet up,
raise 404 if absent, otherwise increase the quantity and commit. -/
def restock_sweet (db : List Sweet) (sweet_id quantity : Int) :
    Except ApiError Sweet × List Sweet :=
  match findSweet db sweet_id with
  | none => (Except.error ApiError.notFound, db)
  | some sweet =>
      (Except.ok (sweet.setQuantity (sweet.quantity + quantity)),
       updateRow db sweet_id (sweet.setQuantity (sweet.quantity + quantity)))

/-- Helper lemma: after committing a mutation that keeps the primary key
of the row found for this id, the lookup finds the mutated row. -/
theorem findSweet_updateRow (db : List Sweet) (i : Int) (u s : Sweet)
    (hu : u.id = s.id) (h : findSweet db i = some s) :
    findSweet (updateRow db i u) i = some u := by
  induction db with
  | nil => simp [findSweet] at h
  | cons a db ih =>
    cases hb : (a.id == i) with
    | true =>
      have has : a = s := by
        simpa [findSweet, List.find?, hb] using h
      have hui : (u.id == i) = true := by
        rw [hu, ← has]; exact hb
      simp [findSweet, updateRow, List.find?, hb, hui]
    | false =>
      have h2 : findSweet db i = some s := by
        simpa [findSweet, List.find?, hb] using h
      have h3 := ih h2
      simpa [findSweet, updateRow, List.find?, hb] using h3

/-- Concrete rows used by the witness theorems. -/
def candy : Sweet := ⟨1, "Candy", "Sweet", 3/2, 10⟩

/-- Concrete zero-quantity row used by the witness theorems. -/
def soldOut : Sweet := ⟨2, "Fudge", "Sweet", 2, 0⟩

/-- Concrete low-quantity row used by the witness theorems. -/
def lowStock : Sweet := ⟨3, "Mint", "Sweet", 1, 2⟩

/-- Claim C2: for an existing sweet and a positive amount, purchase fails
with the out-of-stock error whenever the current quantity is zero,
whatever the amount (so the zero check takes precedence over the
insufficiency check); otherwise, when the quantity is below the amount,
it fails with the insufficient-stock error carrying exactly the actual
available quantity; and the two failure kinds are distinct. -/
theorem purchase_failure_kinds (db : List Sweet) (sweet_id amount : Int)
    (s : Sweet) (hfind : findSweet db sweet_id = some s) (hamt : 0 < amount) :
    (s.quantity = 0 →
      purchase_sweet db sweet_id amount = (Except.error ApiError.outOfStock, db)) ∧
    (s.quantity ≠ 0 → s.quantity < amount →
      purchase_sweet db sweet_id amount =
        (Except.error (ApiError.insufficientStock s.quantity), db)) ∧
    (∀ q : Int, ApiError.outOfStock ≠ ApiError.insufficientStock q) := by
  refine ⟨?_, ?_, ?_⟩
  · intro h0
    simp [purchase_sweet, hfind, h0]
  · intro h0 hlt
    simp [purchase_sweet, hfind, h0, hlt]
  · intro q h
    exact ApiError.noConfusion h

/-- Witness for C2 at concrete inputs: a zero-quantity sweet yields the
out-of-stock error for an amount of 5, and a quantity-2 sweet yields the
insufficient-stock error reporting 2 for an amount of 5. -/
theorem purchase_failure_kinds_witness :
    purchase_sweet [soldOut] 2 5 = (Except.error ApiError.outOfStock, [soldOut]) ∧
    purchase_sweet [lowStock] 3 5 =
      (Except.error (ApiError.insufficientStock 2), [lowStock]) :=
  ⟨(purchase_failure_kinds [soldOut] 2 5 soldOut rfl (by decide)).1
      (by decide),
   (purchase_failure_kinds [lowStock] 3 5 lowStock rfl (by decide)).2.1
      (by decide) (by decide)⟩

/-- Claim C3: for an existing sweet with positive quantity and a positive
amount at most that quantity, purchase succeeds, returns the sweet with
quantity decreased by the amount, and persists the change (the store
lookup after the call finds the updated row); when the id does not exist
purchase fails with the not-found error. -/
theorem purchase_success_updates (db : List Sweet) (sweet_id amount : Int)
    (s : Sweet) (hfind : findSweet db sweet_id = some s) (hq : 0 < s.quantity)
    (hamt : 0 < amount) (hle : amount ≤ s.quantity) :
    (purchase_sweet db sweet_id amount).1 =
      Except.ok (s.setQuantity (s.quantity - amount)) ∧
    findSweet (purchase_sweet db sweet_id amount).2 sweet_id =
      some (s.setQuantity (s.quantity - amount)) ∧
    (∀ db2 : List Sweet, findSweet db2 sweet_id = none →
      purchase_sweet db2 sweet_id amount = (Except.error ApiError.notFound, db2)) := by
  have h0 : ¬ s.quantity = 0 := by omega
  have hnlt : ¬ s.quantity < amount := by omega
  refine ⟨?_, ?_, ?_⟩
  · simp [purchase_sweet, hfind, h0, hnlt]
  · have hfind2 :
        (purchase_sweet db sweet_id amount).2 =
          updateRow db sweet_id (s.setQuantity (s.quantity - amount)) := by
      simp [purchase_sweet, hfind, h0, hnlt]
    rw [hfind2]
    exact findSweet_updateRow db sweet_id (s.setQuantity (s.quantity - amount)) s rfl hfind
  · intro db2 hnone
    simp [purchase_sweet, hnone]

/-- Witness for C3: purchasing 4 of a quantity-10 sweet leaves 6, and the
updated row is found in the store afterwards; the lookup on the empty
store yields the not-found error. -/
theorem purchase_success_updates_witness :
    (purchase_sweet [candy] 1 4).1 = Except.ok (candy.setQuantity 6) ∧
    findSweet (purchase_sweet [candy] 1 4).2 1 = some (candy.setQuantity 6) ∧
    purchase_sweet [] 1 4 = (Except.error ApiError.notFound, ([] : List Sweet)) := by
  have h := purchase_success_updates [candy] 1 4 candy rfl (by decide)
      (by decide) (by decide)
  exact ⟨h.1, h.2.1, h.2.2 [] rfl⟩

/-- Claim C4: for an existing sweet and a positive amount, restock always
succeeds, with no bound on the amount or the resulting quantity: the
returned sweet has the old quantity plus the amount and the change is
persisted; on a missing id it fails with the not-found error, and the
not-found error is the only failure mode of restock. -/
theorem restock_success (db : List Sweet) (sweet_id amount : Int)
    (s : Sweet) (hfind : findSweet db sweet_id = some s) (hamt : 0 < amount) :
    (restock_sweet db sweet_id amount).1 =
      Except.ok (s.setQuantity (s.quantity + amount)) ∧
    findSweet (restock_sweet db sweet_id amount).2 sweet_id =
      some (s.setQuantity (s.quantity + amount)) ∧
    (∀ db2 : List Sweet, findSweet db2 sweet_id = none →
      restock_sweet db2 sweet_id amount = (Except.error ApiError.notFound, db2)) ∧
    (∀ (db2 : List Sweet) (i2 a2 : Int) (e : ApiError),
      (restock_sweet db2 i2 a2).1 = Except.error e → e = ApiError.notFound) := by
  refine ⟨?_, ?_, ?_, ?_⟩
  · simp [restock_sweet, hfind]
  · have hfind2 :
        (restock_sweet db sweet_id amount).2 =
          updateRow db sweet_id (s.setQuantity (s.quantity + amount)) := by
      simp [restock_sweet, hfind]
    rw [hfind2]
    exact findSweet_updateRow db sweet_id (s.setQuantity (s.quantity + amount)) s rfl hfind
  · intro db2 hnone
    simp [restock_sweet, hnone]
  · intro db2 i2 a2 e he
    cases hf : findSweet db2 i2 with
    | none =>
      simp [restock_sweet, hf] at he
      exact he.symm
    | some t => simp [restock_sweet, hf] at he

/-- Witness for C4: restocking 4 onto the zero-quantity sweet yields
quantity 4 and persists it, and restock on the empty store yields the
not-found error. -/
theorem restock_success_witness :
    (restock_sweet [soldOut] 2 4).1 = Except.ok (soldOut.setQuantity 4) ∧
    findSweet (restock_sweet [soldOut] 2 4).2 2 = some (soldOut.setQuantity 4) ∧
    restock_sweet [] 2 4 = (Except.error ApiError.notFound, ([] : List Sweet)) := by
  have h := restock_success [soldOut] 2 4 soldOut rfl (by decide)
  exact ⟨h.1, h.2.1, h.2.2.1 [] rfl⟩

/-- Claim C5: whenever a purchase or restock call fails, the store state
after the call is exactly the store state before it: no partial mutation
is visible on any failure path. -/
theorem failed_ops_leave_state (db : List Sweet) (sweet_id amount : Int)
    (e : ApiError) :
    ((purchase_sweet db sweet_id amount).1 = Except.error e →
      (purchase_sweet db sweet_id amount).2 = db) ∧
    ((restock_sweet db sweet_id amount).1 = Except.error e →
      (restock_sweet db sweet_id amount).2 = db) := by
  constructor
  · intro h
    cases hf : findSweet db sweet_id with
    | none => simp [purchase_sweet, hf]
    | some s =>
      by_cases h0 : s.quantity = 0
      · simp [purchase_sweet, hf, h0]
      · by_cases hlt : s.quantity < amount
        · simp [purchase_sweet, hf, h0, hlt]
        · simp [purchase_sweet, hf, h0, hlt] at h
  · intro h
    cases hf : findSweet db sweet_id with
    | none => simp [restock_sweet, hf]
    | some s => simp [restock_sweet, hf] at h

/-- Witness for C5: a failing purchase and a failing restock on a
concrete store leave it unchanged. -/
theorem failed_ops_leave_state_witness :
    (purchase_sweet [soldOut] 2 1).2 = [soldOut] ∧
    (restock_sweet [] 2 1).2 = ([] : List Sweet) :=
  ⟨(failed_ops_leave_state [soldOut] 2 1 ApiError.outOfStock).1 rfl,
   (failed_ops_leave_state [] 2 1 ApiError.notFound).2 rfl⟩

/-- One inventory operation issued against a fixed sweet. -/
inductive Op where
  | purchase (amount : Int)
  | restock (amount : Int)
deriving DecidableEq, Repr

/-- The amount carried by an operation. -/
def Op.amount : Op → Int
  | .purchase a => a
  | .restock a => a

/-- The store state after one inventory service call on the given id,
keeping only the state (the returned value or error is dropped). -/
def applyOpDb (db : List Sweet) (sweet_id : Int) : Op → List Sweet
  | .purchase a => (purchase_sweet db sweet_id a).2
  | .restock a => (restock_sweet db sweet_id a).2

/-- The store state after a sequence of inventory service calls on the
given id. -/
def runOps (db : List Sweet) (sweet_id : Int) : List Op → List Sweet
  | [] => db
  | op :: ops => runOps (applyOpDb db sweet_id op) sweet_id ops

/-- The quantity of the row with the given id, when such a row exists. -/
def quantityOf (db : List Sweet) (sweet_id : Int) : Option Int :=
  (findSweet db sweet_id).map Sweet.quantity

/-- Quantity evolution of one existing row under one operation, with the
branch structure of the inventory service: a purchase is rejected (the
quantity is unchanged) when the quantity is zero or below the amount and
granted otherwise; a restock always succeeds. -/
def applyOp (q : Int) : Op → Int
  | .purchase a => if q = 0 then q else if q < a then q else q - a
  | .restock a => q + a

/-- Quantity of one existing row after a sequence of operations. -/
def runQty (q : Int) : List Op → Int
  | [] => q
  | op :: ops => runQty (applyOp q op) ops

/-- Sum of the amounts of the purchases granted along the run. -/
def succPurchases (q : Int) : List Op → Int
  | [] => 0
  | Op.purchase a :: ops =>
      (if q = 0 then 0 else if q < a then 0 else a) +
        succPurchases (applyOp q (Op.purchase a)) ops
  | Op.restock a :: ops => succPurchases (q + a) ops

/-- Sum of the amounts of the restocks of the run (every restock of an
existing row succeeds). -/
def restockSum : List Op → Int
  | [] => 0
  | Op.purchase _ :: ops => restockSum ops
  | Op.restock a :: ops => a + restockSum ops

/-- One service call on an existing row keeps a row with that id in the
store, and its quantity evolves by applyOp. -/
theorem applyOpDb_step (db : List Sweet) (i : Int) (s : Sweet) (op : Op)
    (h : findSweet db i = some s) :
    ∃ s2 : Sweet, findSweet (applyOpDb db i op) i = some s2 ∧
      s2.quantity = applyOp s.quantity op := by
  cases op with
  | purchase a =>
    by_cases h0 : s.quantity = 0
    · exact ⟨s, by simp [applyOpDb, purchase_sweet, h, h0], by simp [applyOp, h0]⟩
    · by_cases hlt : s.quantity < a
      · exact ⟨s, by simp [applyOpDb, purchase_sweet, h, h0, hlt],
          by simp [applyOp, h0, hlt]⟩
      · refine ⟨s.setQuantity (s.quantity - a), ?_, ?_⟩
        · have h2 : applyOpDb db i (Op.purchase a) =
              updateRow db i (s.setQuantity (s.quantity - a)) := by
            simp [applyOpDb, purchase_sweet, h, h0, hlt]
          rw [h2]
          exact findSweet_updateRow db i _ s rfl h
        · simp [Sweet.setQuantity, applyOp, h0, hlt]
  | restock a =>
    refine ⟨s.setQuantity (s.quantity + a), ?_, ?_⟩
    · have h2 : applyOpDb db i (Op.restock a) =
          updateRow db i (s.setQuantity (s.quantity + a)) := by
        simp [applyOpDb, restock_sweet, h]
      rw [h2]
      exact findSweet_updateRow db i _ s rfl h
    · simp [Sweet.setQuantity, applyOp]

/-- Projection: running a sequence of service calls on an existing row
keeps a row with that id whose quantity is the per-row quantity run. -/
theorem runOps_proj (ops : List Op) : ∀ (db : List Sweet) (i : Int) (s : Sweet),
    findSweet db i = some s →
    ∃ t : Sweet, findSweet (runOps db i ops) i = some t ∧
      t.quantity = runQty s.quantity ops := by
  induction ops with
  | nil => exact fun db i s h => ⟨s, h, rfl⟩
  | cons op ops ih =>
    intro db i s h
    obtain ⟨s2, hs2, hq2⟩ := applyOpDb_step db i s op h
    obtain ⟨t, ht, htq⟩ := ih (applyOpDb db i op) i s2 hs2
    refine ⟨t, ht, ?_⟩
    rw [htq, hq2]
    rfl

/-- Appending sequences of service calls composes the runs. -/
theorem runOps_append (p : List Op) : ∀ (l : List Op) (db : List Sweet) (i : Int),
    runOps db i (p ++ l) = runOps (runOps db i p) i l := by
  induction p with
  | nil => intro l db i; rfl
  | cons op p ih => intro l db i; exact ih l (applyOpDb db i op) i

/-- Appending sequences of operations composes the quantity runs. -/
theorem runQty_append (p : List Op) : ∀ (l : List Op) (q : Int),
    runQty q (p ++ l) = runQty (runQty q p) l := by
  induction p with
  | nil => intro l q; rfl
  | cons op p ih => intro l q; exact ih l (applyOp q op)

/-- Accounting for the per-row quantity run: the final quantity is the
initial one minus the granted purchases plus the restocks, and it stays
nonnegative. -/
theorem runQty_accounting (ops : List Op) : ∀ q : Int, 0 ≤ q →
    (∀ op ∈ ops, 0 < op.amount) →
    runQty q ops = q - succPurchases q ops + restockSum ops ∧
      0 ≤ runQty q ops := by
  induction ops with
  | nil =>
    intro q hq _
    simp [runQty, succPurchases, restockSum, hq]
  | cons op ops ih =>
    intro q hq hpos
    have hop : 0 < op.amount := hpos op (by simp)
    have hpos2 : ∀ o ∈ ops, 0 < o.amount := fun o ho => hpos o (by simp [ho])
    cases op with
    | purchase a =>
      have ha : 0 < a := hop
      by_cases h0 : q = 0
      · have happ : applyOp q (Op.purchase a) = q := by simp [applyOp, h0]
        have hih := ih q hq hpos2
        have hrun : runQty q (Op.purchase a :: ops) = runQty q ops := by
          simp [runQty, happ]
        have hsp : succPurchases q (Op.purchase a :: ops) = succPurchases q ops := by
          simp only [succPurchases]
          rw [happ]
          simp [h0]
        have hrs : restockSum (Op.purchase a :: ops) = restockSum ops := rfl
        rw [hrun, hsp, hrs]
        exact hih
      · by_cases hlt : q < a
        · have happ : applyOp q (Op.purchase a) = q := by simp [applyOp, h0, hlt]
          have hih := ih q hq hpos2
          have hrun : runQty q (Op.purchase a :: ops) = runQty q ops := by
            simp [runQty, happ]
          have hsp : succPurchases q (Op.purchase a :: ops) = succPurchases q ops := by
            simp only [succPurchases]
            rw [happ]
            simp [h0, hlt]
          have hrs : restockSum (Op.purchase a :: ops) = restockSum ops := rfl
          rw [hrun, hsp, hrs]
          exact hih
        · have happ : applyOp q (Op.purchase a) = q - a := by
            simp [applyOp, h0, hlt]
          have hq2 : 0 ≤ q - a := by omega
          have hih := ih (q - a) hq2 hpos2
          have hrun : runQty q (Op.purchase a :: ops) = runQty (q - a) ops := by
            simp [runQty, happ]
          have hsp : succPurchases q (Op.purchase a :: ops) =
              a + succPurchases (q - a) ops := by
            simp only [succPurchases]
            rw [happ]
            simp [h0, hlt]
          have hrs : restockSum (Op.purchase a :: ops) = restockSum ops := rfl
          rw [hrun, hsp, hrs]
          omega
    | restock a =>
      have ha : 0 < a := hop
      have hq2 : 0 ≤ q + a := by omega
      have hih := ih (q + a) hq2 hpos2
      have hrun : runQty q (Op.restock a :: ops) = runQty (q + a) ops := by
        simp [runQty, applyOp]
      have hsp : succPurchases q (Op.restock a :: ops) =
          succPurchases (q + a) ops := rfl
      have hrs : restockSum (Op.restock a :: ops) = a + restockSum ops := rfl
      rw [hrun, hsp, hrs]
      omega

/-- Claim C1: for a row with nonnegative initial quantity and any finite
sequence of positive-amount purchase and restock service calls on it,
the final quantity is the initial quantity minus the amounts of the
granted purchases plus the amounts of the restocks, the quantity is
nonnegative after every prefix of the sequence, and any operation whose
success would make the quantity negative is rejected and leaves the
quantity unchanged. -/
theorem inventory_sequence_invariant (db : List Sweet) (i q0 : Int)
    (ops : List Op) (hq : quantityOf db i = some q0) (h0 : 0 ≤ q0)
    (hpos : ∀ op ∈ ops, 0 < op.amount) :
    quantityOf (runOps db i ops) i =
      some (q0 - succPurchases q0 ops + restockSum ops) ∧
    (∀ p t : List Op, ops = p ++ t →
      ∃ q, quantityOf (runOps db i p) i = some q ∧ 0 ≤ q) ∧
    (∀ (p t : List Op) (a q : Int), ops = p ++ Op.purchase a :: t →
      quantityOf (runOps db i p) i = some q → q - a < 0 →
      quantityOf (runOps db i (p ++ [Op.purchase a])) i = some q) := by
  have hq2 : (findSweet db i).map Sweet.quantity = some q0 := hq
  cases hf : findSweet db i with
  | none => rw [hf] at hq2; simp at hq2
  | some s =>
    rw [hf] at hq2
    have hsq : s.quantity = q0 := by simpa using hq2
    refine ⟨?_, ?_, ?_⟩
    · obtain ⟨t, ht, htq⟩ := runOps_proj ops db i s hf
      have hqt : quantityOf (runOps db i ops) i = some t.quantity := by
        simp [quantityOf, ht]
      rw [hqt, htq, hsq, (runQty_accounting ops q0 h0 hpos).1]
    · intro p t2 hsplit
      have hposp : ∀ op ∈ p, 0 < op.amount := fun op hop =>
        hpos op (hsplit ▸ List.mem_append_left _ hop)
      obtain ⟨u, hu, huq⟩ := runOps_proj p db i s hf
      refine ⟨runQty q0 p, ?_, (runQty_accounting p q0 h0 hposp).2⟩
      have hqu : quantityOf (runOps db i p) i = some u.quantity := by
        simp [quantityOf, hu]
      rw [hqu, huq, hsq]
    · intro p t2 a q hsplit hquant hneg
      have hposp : ∀ op ∈ p, 0 < op.amount := fun op hop =>
        hpos op (hsplit ▸ List.mem_append_left _ hop)
      obtain ⟨u, hu, huq⟩ := runOps_proj p db i s hf
      have hqu : quantityOf (runOps db i p) i = some u.quantity := by
        simp [quantityOf, hu]
      rw [hqu] at hquant
      have huq2 : u.quantity = q := Option.some.inj hquant
      have hqv : q = runQty q0 p := by rw [← huq2, huq, hsq]
      have hge : 0 ≤ runQty q0 p := (runQty_accounting p q0 h0 hposp).2
      obtain ⟨v, hv, hvq⟩ := runOps_proj (p ++ [Op.purchase a]) db i s hf
      have hqv2 : quantityOf (runOps db i (p ++ [Op.purchase a])) i =
          some v.quantity := by
        simp [quantityOf, hv]
      rw [hqv2, hvq, hsq, runQty_append]
      have happ : runQty (runQty q0 p) [Op.purchase a] =
          applyOp (runQty q0 p) (Op.purchase a) := rfl
      rw [happ]
      have hstay : applyOp (runQty q0 p) (Op.purchase a) = runQty q0 p := by
        have hlt : runQty q0 p < a := by omega
        by_cases hz : runQty q0 p = 0
        · simp [applyOp, hz]
        · simp [applyOp, hz, hlt]
      rw [hstay, ← hqv]

/-- The end-to-end operation sequence of the specification, used by the
witness: buy 4, fail to buy 10, restock 4, buy 10, fail to buy 1. -/
def exOps : List Op :=
  [Op.purchase 4, Op.purchase 10, Op.restock 4, Op.purchase 10, Op.purchase 1]

/-- Witness for C1: starting from quantity 10, the example sequence ends
at quantity 10 - (4 + 10) + 4 = 0, the rejected operations having had no
effect. -/
theorem inventory_sequence_invariant_witness :
    quantityOf (runOps [candy] 1 exOps) 1 = some 0 := by
  have h := (inventory_sequence_invariant [candy] 1 10 exOps rfl (by decide)
      (by decide)).1
  exact h.trans (by decide)

/-- SweetService.get_all_sweets (src/backend/app/services/sweet_service.py):
all rows of the store. -/
def get_all_sweets (db : List Sweet) : List Sweet := db

/-- Whether the first character sequence starts the second. -/
def startsWith : List Char → List Char → Bool
  | [], _ => true
  | _ :: _, [] => false
  | p :: ps, c :: cs => p == c && startsWith ps cs

/-- Whether the first character sequence occurs contiguously inside the
second. -/
def containsSeq : List Char → List Char → Bool
  | pat, [] => pat.isEmpty
  | pat, c :: cs => startsWith pat (c :: cs) || containsSeq pat cs

/-- The SQL pattern Sweet.name.ilike with a percent sign on both sides of
the filter value: the filter value occurs inside the name, compared
case-insensitively. -/
def ilikeContains (hay pat : String) : Bool :=
  containsSeq pat.toLower.toList hay.toLower.toList

/-- The name step of SweetService.search_sweets: the guard is the Python
truthiness test if name:, so a missing or empty-string value applies no
filter. -/
def filterByName (q : List Sweet) : Option String → List Sweet
  | none => q
  | some n => if n = "" then q else q.filter (fun s => ilikeContains s.name n)

/-- The category step of SweetService.search_sweets: the guard is the
Python truthiness test if category:, so a missing or empty-string value
applies no filter; a present value is an exact match. -/
def filterByCategory (q : List Sweet) : Option String → List Sweet
  | none => q
  | some c => if c = "" then q else q.filter (fun s => s.category == c)

/-- The minimum-price step of SweetService.search_sweets: the guard is
min_price is not None; a present value keeps rows with price at least
the bound. -/
def filterByMinPrice (q : List Sweet) : Option ℚ → List Sweet
  | none => q
  | some m => q.filter (fun s => decide (m ≤ s.price))

/-- The maximum-price step of SweetService.search_sweets: the guard is
max_price is not None; a present value keeps rows with price at most the
bound. -/
def filterByMaxPrice (q : List Sweet) : Option ℚ → List Sweet
  | none => q
  | some m => q.filter (fun s => decide (s.price ≤ m))

/-- SweetService.search_sweets (src/backend/app/services/sweet_service.py):
the query is built by applying the four optional filter steps in turn. -/
def search_sweets (db : List Sweet) (name category : Option String)
    (min_price max_price : Option ℚ) : List Sweet :=
  filterByMaxPrice
    (filterByMinPrice (filterByCategory (filterByName db name) category)
      min_price) max_price

/-- The filter conjunction exactly as claim C7 words it: a present name
filter is a case-insensitive substring constraint, a present category
filter an exact-match constraint, present price filters are inclusive
bounds, and an absent filter imposes no constraint.  This definition
follows the words of the claim, for comparison against search_sweets. -/
def claimMatches (name category : Option String)
    (min_price max_price : Option ℚ) (s : Sweet) : Bool :=
  (match name with
   | none => true
   | some n => ilikeContains s.name n) &&
  (match category with
   | none => true
   | some c => s.category == c) &&
  (match min_price with
   | none => true
   | some m => decide (m ≤ s.price)) &&
  (match max_price with
   | none => true
   | some m => decide (s.price ≤ m))

/-- The filter conjunction of the amended claim C7: as claimMatches, but
an empty-string name or category value also imposes no constraint. -/
def amendedMatches (name category : Option String)
    (min_price max_price : Option ℚ) (s : Sweet) : Bool :=
  (match name with
   | none => true
   | some n => if n = "" then true else ilikeContains s.name n) &&
  (match category with
   | none => true
   | some c => if c = "" then true else s.category == c) &&
  (match min_price with
   | none => true
   | some m => decide (m ≤ s.price)) &&
  (match max_price with
   | none => true
   | some m => decide (s.price ≤ m))

/-- Membership through the name step. -/
theorem mem_filterByName (q : List Sweet) (name : Option String) (s : Sweet) :
    s ∈ filterByName q name ↔ s ∈ q ∧
      (match name with
       | none => true
       | some n => if n = "" then true else ilikeContains s.name n) = true := by
  cases name with
  | none => simp [filterByName]
  | some n =>
    by_cases hn : n = ""
    · simp [filterByName, hn]
    · simp [filterByName, hn, List.mem_filter]

/-- Membership through the category step. -/
theorem mem_filterByCategory (q : List Sweet) (category : Option String)
    (s : Sweet) :
    s ∈ filterByCategory q category ↔ s ∈ q ∧
      (match category with
       | none => true
       | some c => if c = "" then true else s.category == c) = true := by
  cases category with
  | none => simp [filterByCategory]
  | some c =>
    by_cases hc : c = ""
    · simp [filterByCategory, hc]
    · simp [filterByCategory, hc, List.mem_filter]

/-- Membership through the minimum-price step. -/
theorem mem_filterByMinPrice (q : List Sweet) (min_price : Option ℚ)
    (s : Sweet) :
    s ∈ filterByMinPrice q min_price ↔ s ∈ q ∧
      (match min_price with
       | none => true
       | some m => decide (m ≤ s.price)) = true := by
  cases min_price with
  | none => simp [filterByMinPrice]
  | some m => simp [filterByMinPrice, List.mem_filter]

/-- Membership through the maximum-price step. -/
theorem mem_filterByMaxPrice (q : List Sweet) (max_price : Option ℚ)
    (s : Sweet) :
    s ∈ filterByMaxPrice q max_price ↔ s ∈ q ∧
      (match max_price with
       | none => true
       | some m => decide (s.price ≤ m)) = true := by
  cases max_price with
  | none => simp [filterByMaxPrice]
  | some m => simp [filterByMaxPrice, List.mem_filter]

/-- Counterexample to claim C7 as stated: with the present filter
category = some "" the search returns every row (the Python truthiness
guard skips the empty-string filter), not the rows whose category
exactly equals the empty string as the conjunction of present filters
would require. -/
theorem search_conjunction_counterexample :
    search_sweets [lowStock] none (some "") none none ≠
      (get_all_sweets [lowStock]).filter
        (claimMatches none (some "") none none) := by
  decide

/-- Claim C7 as amended: search returns exactly the rows of the store
satisfying the conjunction of the present filters, where an absent
filter, an empty-string name filter or an empty-string category filter
imposes no constraint; search with no filters returns the same sequence
as list. -/
theorem search_filters_conjunction (db : List Sweet)
    (name category : Option String) (min_price max_price : Option ℚ) :
    (∀ s : Sweet, s ∈ search_sweets db name category min_price max_price ↔
      s ∈ get_all_sweets db ∧
        amendedMatches name category min_price max_price s = true) ∧
    search_sweets db none none none none = get_all_sweets db := by
  constructor
  · intro s
    rw [search_sweets, mem_filterByMaxPrice, mem_filterByMinPrice,
      mem_filterByCategory, mem_filterByName]
    simp only [amendedMatches, get_all_sweets, Bool.and_eq_true, and_assoc]
  · rfl

/-- Claim C9: search treats an empty-string filter value as absent: a
name or category filter equal to the empty string applies no constraint
for that field, and searching with both string filters empty returns the
same sequence as list. -/
theorem empty_string_filter_is_absent (db : List Sweet)
    (name category : Option String) (min_price max_price : Option ℚ) :
    search_sweets db (some "") category min_price max_price =
      search_sweets db none category min_price max_price ∧
    search_sweets db name (some "") min_price max_price =
      search_sweets db name none min_price max_price ∧
    search_sweets db (some "") (some "") none none = get_all_sweets db := by
  refine ⟨?_, ?_, ?_⟩
  · simp [search_sweets, filterByName]
  · simp [search_sweets, filterByCategory]
  · simp [search_sweets, filterByName, filterByCategory, filterByMinPrice,
      filterByMaxPrice, get_all_sweets]

/-- UserRole (src/backend/app/models/user.py): USER is the standard role,
ADMIN the elevated one. -/
inductive UserRole where
  | USER
  | ADMIN
deriving DecidableEq, Repr

/-- The User model (src/backend/app/models/user.py). -/
structure User where
  id : Int
  email : String
  hashed_password : String
  role : UserRole
deriving DecidableEq, Repr

/-- require_admin (src/backend/app/auth/dependencies.py): raise 403 when
the authenticated user is not an admin, otherwise pass the user on. -/
def require_admin (current_user : User) : Except ApiError User :=
  if current_user.role ≠ UserRole.ADMIN then Except.error ApiError.forbidden
  else Except.ok current_user

/-- The request body of create and update
(src/backend/app/schemas/sweet.py). -/
structure SweetCreate where
  name : String
  category : String
  price : ℚ
  quantity : Int
deriving DecidableEq, Repr

/-- SweetService.create_sweet (src/backend/app/services/sweet_service.py):
build a new row from the fields, add and commit it.  The primary key is
store-assigned by the relational store; it is embedded as the explicit
next_id argument (spec section 3: id unique, store-assigned). -/
def create_sweet (db : List Sweet) (next_id : Int) (sweet_data : SweetCreate) :
    Sweet × List Sweet :=
  let new_sweet : Sweet :=
    ⟨next_id, sweet_data.name, sweet_data.category, sweet_data.price,
     sweet_data.quantity⟩
  (new_sweet, db ++ [new_sweet])

/-- SweetService.update_sweet (src/backend/app/services/sweet_service.py):
find the row, return none when absent, otherwise replace all four fields
and commit. -/
def update_sweet (db : List Sweet) (sweet_id : Int) (sweet_data : SweetCreate) :
    Option Sweet × List Sweet :=
  match findSweet db sweet_id with
  | none => (none, db)
  | some sweet =>
      let u : Sweet :=
        ⟨sweet.id, sweet_data.name, sweet_data.category, sweet_data.price,
         sweet_data.quantity⟩
      (some u, updateRow db sweet_id u)

/-- SweetService.delete_sweet (src/backend/app/services/sweet_service.py):
find the row, return false when absent, otherwise delete and commit. -/
def delete_sweet (db : List Sweet) (sweet_id : Int) : Bool × List Sweet :=
  match findSweet db sweet_id with
  | none => (false, db)
  | some _ => (true, db.eraseP (fun s => s.id == sweet_id))

/-- POST /api/sweets (src/backend/app/routers/sweets.py): the
require_admin dependency runs before the service call. -/
def create_endpoint (current_user : User) (db : List Sweet) (next_id : Int)
    (sweet_data : SweetCreate) : Except ApiError Sweet × List Sweet :=
  match require_admin current_user with
  | Except.error e => (Except.error e, db)
  | Except.ok _ =>
      let r := create_sweet db next_id sweet_data
      (Except.ok r.1, r.2)

/-- PUT /api/sweets/id (src/backend/app/routers/sweets.py): require_admin
first, then the service; a none result becomes 404. -/
def update_endpoint (current_user : User) (db : List Sweet) (sweet_id : Int)
    (sweet_data : SweetCreate) : Except ApiError Sweet × List Sweet :=
  match require_admin current_user with
  | Except.error e => (Except.error e, db)
  | Except.ok _ =>
      match update_sweet db sweet_id sweet_data with
      | (none, db2) => (Except.error ApiError.notFound, db2)
      | (some u, db2) => (Except.ok u, db2)

/-- DELETE /api/sweets/id (src/backend/app/routers/sweets.py):
require_admin first, then the service; a false result becomes 404. -/
def delete_endpoint (current_user : User) (db : List Sweet) (sweet_id : Int) :
    Except ApiError Unit × List Sweet :=
  match require_admin current_user with
  | Except.error e => (Except.error e, db)
  | Except.ok _ =>
      match delete_sweet db sweet_id with
      | (false, db2) => (Except.error ApiError.notFound, db2)
      | (true, db2) => (Except.ok (), db2)

/-- POST /api/sweets/id/purchase (src/backend/app/routers/inventory.py):
the dependency is get_current_user only, which authenticates but imposes
no role, so the authenticated identity is passed through unchecked. -/
def purchase_endpoint (current_user : User) (db : List Sweet)
    (sweet_id amount : Int) : Except ApiError Sweet × List Sweet :=
  purchase_sweet db sweet_id amount

/-- POST /api/sweets/id/restock (src/backend/app/routers/inventory.py):
the require_admin dependency runs before the service call. -/
def restock_endpoint (current_user : User) (db : List Sweet)
    (sweet_id amount : Int) : Except ApiError Sweet × List Sweet :=
  match require_admin current_user with
  | Except.error e => (Except.error e, db)
  | Except.ok _ => restock_sweet db sweet_id amount

/-- Claim C6: a standard-role identity invoking create, update, delete or
restock always fails with the forbidden error, the store being exactly as
before the call (the role check runs before any store mutation); purchase
is never rejected with the forbidden error for any authenticated
identity; and an elevated identity passes the role check. -/
theorem role_enforcement :
    (∀ (u : User) (db : List Sweet) (next_id : Int) (d : SweetCreate),
      u.role = UserRole.USER →
      create_endpoint u db next_id d = (Except.error ApiError.forbidden, db)) ∧
    (∀ (u : User) (db : List Sweet) (sweet_id : Int) (d : SweetCreate),
      u.role = UserRole.USER →
      update_endpoint u db sweet_id d = (Except.error ApiError.forbidden, db)) ∧
    (∀ (u : User) (db : List Sweet) (sweet_id : Int),
      u.role = UserRole.USER →
      delete_endpoint u db sweet_id = (Except.error ApiError.forbidden, db)) ∧
    (∀ (u : User) (db : List Sweet) (sweet_id amount : Int),
      u.role = UserRole.USER →
      restock_endpoint u db sweet_id amount =
        (Except.error ApiError.forbidden, db)) ∧
    (∀ (u : User) (db : List Sweet) (sweet_id amount : Int),
      (purchase_endpoint u db sweet_id amount).1 ≠
        Except.error ApiError.forbidden) ∧
    (∀ u : User, u.role = UserRole.ADMIN → require_admin u = Except.ok u) := by
  refine ⟨?_, ?_, ?_, ?_, ?_, ?_⟩
  · intro u db next_id d h
    simp [create_endpoint, require_admin, h]
  · intro u db sweet_id d h
    simp [update_endpoint, require_admin, h]
  · intro u db sweet_id h
    simp [delete_endpoint, require_admin, h]
  · intro u db sweet_id amount h
    simp [restock_endpoint, require_admin, h]
  · intro u db sweet_id amount h
    cases hf : findSweet db sweet_id with
    | none => simp [purchase_endpoint, purchase_sweet, hf] at h
    | some s =>
      by_cases h0 : s.quantity = 0
      · simp [purchase_endpoint, purchase_sweet, hf, h0] at h
      · by_cases hlt : s.quantity < amount
        · simp [purchase_endpoint, purchase_sweet, hf, h0, hlt] at h
        · simp [purchase_endpoint, purchase_sweet, hf, h0, hlt] at h
  · intro u h
    simp [require_admin, h]

/-- Concrete standard-role identity for the witnesses. -/
def standardUser : User := ⟨1, "user@example.com", "h1", UserRole.USER⟩

/-- Concrete elevated identity for the witnesses. -/
def adminUser : User := ⟨2, "admin@example.com", "h2", UserRole.ADMIN⟩

/-- Witness for C6: a standard user restocking is forbidden and leaves
the store unchanged, and the admin passes the role check. -/
theorem role_enforcement_witness :
    restock_endpoint standardUser [candy] 1 5 =
      (Except.error ApiError.forbidden, [candy]) ∧
    require_admin adminUser = Except.ok adminUser :=
  ⟨role_enforcement.2.2.2.1 standardUser [candy] 1 5 rfl,
   role_enforcement.2.2.2.2.2 adminUser rfl⟩

/-- The registration payload UserCreate (src/backend/app/schemas/user.py):
email, password, and a caller-supplied role whose schema default is
USER. -/
structure UserCreate where
  email : String
  password : String
  role : UserRole := UserRole.USER
deriving DecidableEq, Repr

/-- The schema validation of UserCreate (src/backend/app/schemas/user.py):
the password must have at least 8 characters. -/
def userCreateValid (user_data : UserCreate) : Bool :=
  8 ≤ user_data.password.length

/-- register_user (src/backend/app/routers/auth.py): the endpoint has no
authentication dependency; it rejects an already-registered email with
400 and otherwise creates the user with the caller-supplied role.  The
primary key is store-assigned, embedded as the explicit next_id
argument.  get_password_hash (src/backend/app/auth/init, lines 35-47)
hashes with bcrypt under a freshly generated random salt, so it is not a
pure function of the password; it is therefore threaded in as an
explicit function argument whose output is stored opaquely, exactly as
the endpoint stores the bcrypt output. -/
def register_user (get_password_hash : String → String) (db : List User)
    (next_id : Int) (user_data : UserCreate) :
    Except ApiError User × List User :=
  match db.find? (fun u => u.email == user_data.email) with
  | some _ => (Except.error ApiError.emailRegistered, db)
  | none =>
      let new_user : User :=
        ⟨next_id, user_data.email, get_password_hash user_data.password,
         user_data.role⟩
      (Except.ok new_user, db ++ [new_user])

/-- Claim C8: the registration payload carries a caller-supplied role
defaulting to USER, and an unauthenticated registration with a fresh
email, a valid password and role ADMIN creates a user with the elevated
role, whatever the bcrypt hash of the password turns out to be: no
existing credential is required to obtain the elevated role. -/
theorem registration_role_selection :
    (∀ e p : String, ({ email := e, password := p } : UserCreate).role =
      UserRole.USER) ∧
    (∀ (hashpw : String → String) (db : List User) (next_id : Int)
      (d : UserCreate),
      (∀ u ∈ db, u.email ≠ d.email) →
      userCreateValid d = true →
      d.role = UserRole.ADMIN →
      ∃ nu : User,
        register_user hashpw db next_id d = (Except.ok nu, db ++ [nu]) ∧
        nu.role = UserRole.ADMIN ∧ nu.email = d.email) := by
  constructor
  · intro e p
    rfl
  · intro hashpw db next_id d hfresh hvalid hrole
    have hfind : db.find? (fun u => u.email == d.email) = none := by
      rw [List.find?_eq_none]
      intro u hu
      simpa using hfresh u hu
    refine ⟨⟨next_id, d.email, hashpw d.password, d.role⟩, ?_, ?_, rfl⟩
    · simp [register_user, hfind]
    · simpa using hrole

/-- Witness for C8: registering on an empty identity store with a fresh
email, an 8+ character password and role ADMIN yields an admin user, the
hash collaborator instantiated with a concrete function. -/
theorem registration_role_selection_witness :
    ∃ nu : User,
      register_user (fun p => p ++ "#h") [] 1
          (UserCreate.mk "new@example.com" "password123" UserRole.ADMIN) =
        (Except.ok nu, [] ++ [nu]) ∧
      nu.role = UserRole.ADMIN ∧ nu.email = "new@example.com" :=
  registration_role_selection.2 (fun p => p ++ "#h") [] 1
    (UserCreate.mk "new@example.com" "password123" UserRole.ADMIN)
    (by simp) (by decide) rfl

/-- Claim C10: create imposes no uniqueness constraint on any field: with
a row already in the store, creating a second sweet with exactly the same
four fields succeeds, the new row getting the fresh store-assigned id,
and the existing row is still in the store unchanged. -/
theorem create_no_uniqueness (db : List Sweet) (e : Sweet) (next_id : Int)
    (he : e ∈ db) (hfresh : ∀ s ∈ db, s.id < next_id) :
    ∃ nu : Sweet,
      create_sweet db next_id
          (SweetCreate.mk e.name e.category e.price e.quantity) =
        (nu, db ++ [nu]) ∧
      nu.id = next_id ∧ (∀ s ∈ db, s.id ≠ nu.id) ∧ e.id ≠ nu.id ∧
      nu.name = e.name ∧ nu.category = e.category ∧ nu.price = e.price ∧
      nu.quantity = e.quantity ∧ e ∈ db ++ [nu] := by
  refine ⟨⟨next_id, e.name, e.category, e.price, e.quantity⟩, rfl, rfl,
    ?_, ?_, rfl, rfl, rfl, rfl, List.mem_append_left _ he⟩
  · intro s hs
    have := hfresh s hs
    simp only []
    omega
  · have := hfresh e he
    simp only []
    omega

/-- Witness for C10: duplicating the candy row in a one-row store yields
a second row with id 2 and the same fields. -/
theorem create_no_uniqueness_witness :
    ∃ nu : Sweet,
      create_sweet [candy] 2
          (SweetCreate.mk candy.name candy.category candy.price
            candy.quantity) =
        (nu, [candy] ++ [nu]) ∧
      nu.id = 2 ∧ (∀ s ∈ [candy], s.id ≠ nu.id) ∧ candy.id ≠ nu.id ∧
      nu.name = candy.name ∧ nu.category = candy.category ∧
      nu.price = candy.price ∧ nu.quantity = candy.quantity ∧
      candy ∈ [candy] ++ [nu] :=
  create_no_uniqueness [candy] candy 2 (List.mem_cons_self candy [])
    (by decide)
